import Mathlib

/-!
Verification development for the NBA Telegram AutoBot (`src/main.py`).

The Python program is shallowly embedded: every function of the repository
that the properties below mention is translated into a Lean definition of
the same name.  External capabilities (HTTP fetches, the HTML-entity
unescaper of the standard library, the translation service, the Telegram
transport, the SQLite file, PIL encoding, wall-clock time) are abstracted
into an `Env` record of total or `Except`-valued functions; the repository
code is translated literally on top of it.  Python strings are Lean
`String`s (both count code points), Python `None`-able strings are
`Option String`, Python byte strings are `List Nat`, and Python truthiness
of optional strings is the explicit `truthyS`.
-/

namespace AutoBot

/-- Truthiness of a Python value that is either `None` or a string:
`None` and the empty string are falsy. -/
def truthyS : Option String → Bool
  | none => false
  | some s => s ≠ ""

/-- Python `a or b` on `None`-able strings. -/
def pyOr (a b : Option String) : Option String :=
  if truthyS a then a else b

/-- Python `a or b or ""` on `None`-able strings, yielding the string value. -/
def pyStrOr (a b : Option String) : String :=
  if truthyS a then a.getD "" else if truthyS b then b.getD "" else ""

/-- The whitespace characters matched by the regular expression class used in
`re.sub` and stripped by `str.strip` (ASCII whitespace). -/
def isPySpace (c : Char) : Bool :=
  c = ' ' || c = '\t' || c = '\n' || c = '\x0d' || c = '\x0b' || c = '\x0c'

/-- Python `str.strip()` on a character list. -/
def pyStrip (l : List Char) : List Char :=
  ((l.dropWhile isPySpace).reverse.dropWhile isPySpace).reverse

/-- Python `str.strip()` on a string. -/
def pyStripStr (s : String) : String :=
  ⟨pyStrip s.data⟩

/-- Lower-casing of a string, `str.lower()` (ASCII is all the program needs). -/
def pyLower (s : String) : String :=
  ⟨s.data.map Char.toLower⟩

/-! ### Dedup store (`db_init` / `was_posted` / `mark_posted`)

The SQLite table `posts(feed, guid UNIQUE, title, url, published_at,
posted_at)` is modelled as the list of its rows in insertion order; the
`AUTOINCREMENT` id column carries no information and is dropped. -/

/-- One row of the `posts` ledger table. -/
structure PostRow where
  feed : String
  guid : String
  title : String
  url : String
  published_at : String
  posted_at : String
deriving Repr, DecidableEq

/-- The `posts` table: rows in insertion order. -/
abbrev DB := List PostRow

/-- Embeds `was_posted`: `SELECT 1 FROM posts WHERE guid = ?` is non-empty. -/
def was_posted (db : DB) (guid : String) : Bool :=
  db.any (fun r => r.guid == guid)

/-- Embeds `mark_posted`: `INSERT OR IGNORE` against the `UNIQUE` guid column
inserts the row only when no row with that guid exists, and reports no error
either way.  `now` is the `datetime.utcnow().isoformat()` value. -/
def mark_posted (db : DB) (feed guid title url published_at now : String) : DB :=
  if db.any (fun r => r.guid == guid) then db
  else db ++ [⟨feed, guid, title, url, published_at, now⟩]

/-- The ledger's guid-uniqueness invariant. -/
def uniqueGuids (db : DB) : Prop :=
  (db.map PostRow.guid).Nodup

instance (db : DB) : Decidable (uniqueGuids db) := by
  unfold uniqueGuids; infer_instance

/-! ### Text cleaning used by `extract_excerpt`

The two `re.sub` calls of `extract_excerpt` are implemented directly;
`html.unescape` (a standard-library table of ~2000 character references) is
an external capability carried by the environment. -/

/-- One pass of the substitution performed by the tag-stripping regular
expression (each maximal `<`…`>` group with at least one non-`>` character
inside becomes a single space).  The first argument is `none` outside a
candidate tag and `some buf` when scanning a candidate tag whose interior
read so far is `buf` (reversed). -/
def stripTagsGo : Option (List Char) → List Char → List Char
  | none, [] => []
  | none, c :: rest =>
      if c = '<' then stripTagsGo (some []) rest
      else c :: stripTagsGo none rest
  | some buf, [] => '<' :: buf.reverse
  | some buf, c :: rest =>
      if c = '>' then
        if buf.isEmpty then '<' :: '>' :: stripTagsGo none rest
        else ' ' :: stripTagsGo none rest
      else stripTagsGo (some (c :: buf)) rest

/-- Embeds the first substitution of `extract_excerpt`: every markup tag is
replaced by one space. -/
def stripTags (l : List Char) : List Char :=
  stripTagsGo none l

/-- One pass of the second substitution of `extract_excerpt`: every maximal
run of whitespace becomes a single space.  The flag records whether the
previous character belonged to a whitespace run. -/
def collapseWsGo : Bool → List Char → List Char
  | _, [] => []
  | prevSpace, c :: rest =>
      if isPySpace c then
        if prevSpace then collapseWsGo true rest
        else ' ' :: collapseWsGo true rest
      else c :: collapseWsGo false rest

/-- Whitespace collapsing as performed by `extract_excerpt`. -/
def collapseWs (l : List Char) : List Char :=
  collapseWsGo false l

/-- Python `cut.rsplit(" ", 1)[0]`: everything before the last space, or the
whole list when it holds no space. -/
def beforeLastSpace (l : List Char) : List Char :=
  match l.reverse.dropWhile (fun c => c ≠ ' ') with
  | [] => l
  | _ :: rest => rest.reverse

/-! ### Feed entries as delivered by the parser -/

/-- A `{"url": ...}` element of `media_content` / `media_thumbnail`. -/
structure MediaDict where
  url : Option String
deriving Repr, DecidableEq

/-- A member of `entry.links`: `rel`, MIME `type` and `href` attributes,
each possibly absent. -/
structure LinkDict where
  rel : Option String
  type : Option String
  href : Option String
deriving Repr, DecidableEq

/-- A `{"value": ...}` dictionary (`content[0]`, `summary_detail`). -/
structure ValueDict where
  value : Option String
deriving Repr, DecidableEq

/-- The `published_parsed` structure: the first six fields of a
`time.struct_time`. -/
abbrev ParsedTime := Nat × Nat × Nat × Nat × Nat × Nat

/-- A feed entry as the program reads it.  Absent dictionary keys are `none`
(or `[]` for the list-valued keys, which the program only ever tests for
non-emptiness). -/
structure Entry where
  id : Option String := none
  guid : Option String := none
  link : Option String := none
  title : Option String := none
  published : Option String := none
  updated : Option String := none
  published_parsed : Option ParsedTime := none
  content : List ValueDict := []
  summary_detail : Option ValueDict := none
  summary : Option String := none
  description : Option String := none
  media_content : List MediaDict := []
  media_thumbnail : List MediaDict := []
  links : List LinkDict := []
deriving Repr, DecidableEq

/-- A parsed feed: `fp.feed.get("title", feed_url)` and `fp.entries`. -/
structure Feed where
  title : Option String := none
  entries : List Entry := []
deriving Repr

/-! ### Scoreboard events (`fetch_todays_games_message`, the renderer, `post_cta`) -/

/-- A `{"href": ...}` element of a team's `logos` list. -/
structure LogoDict where
  href : Option String := none
deriving Repr, DecidableEq

/-- The `team` sub-dictionary of a competitor. -/
structure TeamDict where
  shortDisplayName : Option String := none
  displayName : Option String := none
  logo : Option String := none
  logos : List LogoDict := []
deriving Repr, DecidableEq

/-- A competitor: `homeAway` marker and the `team` dictionary (`none` models
an absent key, read back through `t.get("team", {})`). -/
structure Competitor where
  homeAway : Option String := none
  team : Option TeamDict := none
deriving Repr, DecidableEq

/-- Python `t.get("team", {})`. -/
def teamOf (c : Competitor) : TeamDict :=
  c.team.getD {}

/-- A competition: its `competitors` list and the
`status.type.state` string reached through nested `.get(..., {})` calls
(`none` when any level of the path is missing). -/
structure Competition where
  competitors : List Competitor := []
  statusState : Option String := none
deriving Repr, DecidableEq

/-- A scoreboard event: `competitions` and the kickoff `date`. -/
structure GameEvent where
  competitions : List Competition := []
  date : Option String := none
deriving Repr, DecidableEq

/-! ### The publish capability and the environment -/

/-- The arguments of one `post_to_channel` invocation, `image_url` and
`image_bytes` defaulting to `""` and `b""` exactly as in the source. -/
structure PubCall where
  text : String
  image_url : String := ""
  image_bytes : List Nat := []
deriving Repr, DecidableEq

/-- A row of the rendered schedule image: the values
`build_daily_schedule_image` draws for one shown event (background fill RGB,
row-top y coordinate, names, logo URLs, time-pill text). -/
structure RowRender where
  fill : Nat × Nat × Nat
  top : Nat
  away_name : String
  home_name : String
  away_logo : Option String
  home_logo : Option String
  hour : String
deriving Repr, DecidableEq

/-- The drawable content of the 1080×1080 canvas that
`build_daily_schedule_image` hands to the PNG encoder. -/
structure Canvas where
  width : Nat := 1080
  height : Nat := 1080
  header : String := "PARTIDOS NBA DE HOY"
  rows : List RowRender := []
  footer : String := "Fuente: ESPN Scoreboard"
deriving Repr, DecidableEq

/-- The external world: configuration read from the process environment and
every outward capability the program calls.  Fallible calls return
`Except Unit`; an `error` is the call raising. -/
structure Env where
  /-- `html.unescape` of the standard library. -/
  unescape : String → String
  /-- `requests.get(url).text` inside `fetch_opengraph_image`
  (`error` = network failure or bad status). -/
  fetchPage : String → Except Unit String
  /-- The BeautifulSoup lookup of the `og:image` meta tag's `content`
  attribute inside the fetched page (`none` = no such tag or no attribute). -/
  findOgContent : String → Option String
  /-- `GoogleTranslator(...).translate` (`error` = the call raising). -/
  translate : String → Except Unit String
  /-- The Telegram transport behind `bot.send_photo` / `bot.send_message`
  (`error` = a `TelegramError`). -/
  deliver : PubCall → Except Unit Unit
  /-- Reading the placeholder file `assets/news_placeholder.png`
  (`error` = `open`/`read` raising). -/
  placeholder : Except Unit (List Nat)
  /-- `datetime.utcnow().isoformat()` at the moment of a ledger insert. -/
  now : String
  /-- `feedparser.parse` per feed URL (`error` = parsing raising). -/
  parse : String → Except Unit Feed
  /-- The configured `RSS_FEEDS` list. -/
  feeds : List String
  /-- The configured `POST_TEMPLATE`. -/
  postTemplate : String
  /-- `datetime(*published_parsed[:6]).strftime("%d %b %Y %H:%M")`
  (`none` = the conversion raising). -/
  fmtParsed : ParsedTime → Option String
  /-- `isoparse(s).astimezone(tz).strftime("%H:%M")` for a kickoff string
  (`none` = `isoparse` raising on that string). -/
  hourOf : String → Option String
  /-- PIL drawing plus `bg.save(buf, format="PNG")` for a canvas
  (`error` = any of those raising). -/
  encodePng : Canvas → Except Unit (List Nat)
  /-- The scoreboard fetch made by `fetch_todays_games_message`:
  `resp.json().get("events", [])` (`error` = request/JSON raising). -/
  scoreboardText : Except Unit (List GameEvent)
  /-- The scoreboard fetch made inside `post_cta`'s `try` block. -/
  scoreboardCta : Except Unit (List GameEvent)
  /-- The configured `CTA_MESSAGE`. -/
  ctaMessage : String
  /-- The configured `CTA_INCLUDE_SCHEDULE` flag. -/
  ctaIncludeSchedule : Bool
  /-- The configured `SCHEDULE_HEADER`. -/
  scheduleHeader : String

/-! ### Text helpers and translation -/

/-- Embeds `normalize_message`: literal `\n` / `\t` sequences from the
configuration become real control characters, then the ends are stripped. -/
def normalize_message (s : String) : String :=
  pyStripStr ((s.replace "\\n" "\n").replace "\\t" "\t")

/-- The value `t` that `translate_to_spanish` hands to the translator:
`text if not limit or len(text) <= limit else text[:limit]`. -/
def translationInput (text : String) (limit : Nat) : String :=
  if limit = 0 || text.length ≤ limit then text else ⟨text.data.take limit⟩

/-- Embeds `translate_to_spanish`: truncate, call the translator, and on any
exception return the original text. -/
def translate_to_spanish (env : Env) (text : String) (limit : Nat := 0) : String :=
  match env.translate (translationInput text limit) with
  | .ok t => t
  | .error _ => text

/-! ### Image resolution -/

/-- Embeds `fetch_opengraph_image`: fetch the article page, look for the
`og:image` meta tag, and return its stripped `content` when truthy; any
exception or absence yields `""`. -/
def fetch_opengraph_image (env : Env) (article_url : String) : String :=
  match env.fetchPage article_url with
  | .error _ => ""
  | .ok page =>
      match env.findOgContent page with
      | some c => if c ≠ "" then pyStripStr c else ""
      | none => ""

/-- The `url` the media loop would return from one of the two media lists:
the list is non-empty and its first element's `url` is truthy. -/
def firstMediaUrl : List MediaDict → Option String
  | [] => none
  | c :: _ => if truthyS c.url then c.url else none

/-- Tier 1 of `get_feed_entry_image_url`: the
`for key in ("media_content", "media_thumbnail")` loop. -/
def mediaTier (e : Entry) : Option String :=
  match firstMediaUrl e.media_content with
  | some u => some u
  | none => firstMediaUrl e.media_thumbnail

/-- Python `s.startswith(pre)` on code points. -/
def pyStartsWith (s pre : String) : Bool :=
  pre.data.isPrefixOf s.data

/-- The predicate of the `entry.get("links", [])` loop: `rel` is
`enclosure` or `preview` and `type` (defaulting to `""`) starts with
`image/`. -/
def isImageEnclosure (l : LinkDict) : Bool :=
  (l.rel == some "enclosure" || l.rel == some "preview")
    && pyStartsWith (l.type.getD "") "image/"

/-- Tier 2 of `get_feed_entry_image_url`: the first matching link of the
`links` list, whose `href` the function returns as-is. -/
def findEnclosureLink (ls : List LinkDict) : Option LinkDict :=
  ls.find? isImageEnclosure

/-- Embeds `get_feed_entry_image_url` instrumented with a call counter: the
first component is the Python return value (which can be `None`, namely a
tier-2 `href` that is missing) and the second counts the
`fetch_opengraph_image` invocations the execution performs. -/
def get_feed_entry_image_url_traced (env : Env) (e : Entry) : Option String × Nat :=
  match mediaTier e with
  | some url => (some url, 0)
  | none =>
      match findEnclosureLink e.links with
      | some l => (l.href, 0)
      | none =>
          let article := e.link.getD ""
          if article ≠ "" then
            let og := fetch_opengraph_image env article
            if og ≠ "" then (some og, 1) else (some "", 1)
          else (some "", 0)

/-- Embeds `get_feed_entry_image_url` (the value the caller sees). -/
def get_feed_entry_image_url (env : Env) (e : Entry) : Option String :=
  (get_feed_entry_image_url_traced env e).1

/-! ### Excerpts and message formatting -/

/-- The `raw` field selection at the top of `extract_excerpt`: richest
available among `content[0].value`, `summary_detail.value`, `summary`,
`description`. -/
def excerptRaw (e : Entry) : String :=
  match e.content with
  | c :: _ => c.value.getD ""
  | [] =>
      match e.summary_detail with
      | some d => d.value.getD ""
      | none => pyStrOr e.summary e.description

/-- The cleaning pipeline of `extract_excerpt`: strip tags, unescape HTML
entities, collapse whitespace, strip the ends. -/
def cleanText (env : Env) (raw : String) : String :=
  ⟨pyStrip (collapseWs (env.unescape ⟨stripTags raw.data⟩).data)⟩

/-- Embeds `extract_excerpt`: clean the selected raw field, and when the
result exceeds `max_chars`, cut at `max_chars`, drop the possibly split last
word with `rsplit(" ", 1)[0]`, and append the ellipsis character. -/
def extract_excerpt (env : Env) (e : Entry) (max_chars : Nat := 350) : String :=
  let text := cleanText env (excerptRaw e)
  if max_chars < text.length then
    ⟨beforeLastSpace (text.data.take max_chars) ++ ['…']⟩
  else text

/-- Python `POST_TEMPLATE.format(...)` for the five placeholders the
template uses (field substitution; the template is configuration). -/
def renderTemplate (tmpl title excerpt link published source : String) : String :=
  ((((tmpl.replace "{title}" title).replace "{excerpt}" excerpt).replace
      "{link}" link).replace "{published}" published).replace "{source}" source

/-- Embeds `format_entry`: resolve title/link/published, build and translate
the excerpt, and render the template, returning `(text, link)`. -/
def format_entry (env : Env) (feed_name : String) (e : Entry) : String × String :=
  let title := e.title.getD "(Sin título)"
  let link := e.link.getD ""
  let published0 := pyStrOr e.published e.updated
  let published :=
    match e.published_parsed with
    | some pt => (env.fmtParsed pt).getD published0
    | none => published0
  let excerpt := extract_excerpt env e
  let title_es := translate_to_spanish env title 200
  let excerpt_es := translate_to_spanish env excerpt 1000
  (renderTemplate env.postTemplate title_es excerpt_es link published feed_name, link)

/-! ### Publishing -/

/-- Embeds `post_to_channel`: dispatch to the transport (bytes first, then
URL, then plain message — all one `deliver` of the argument record) and
catch any `TelegramError`, so the function always returns.  The returned
record is the invocation itself, used for tracing. -/
def post_to_channel (env : Env) (text : String) (image_url : String := "")
    (image_bytes : List Nat := []) : PubCall :=
  let call : PubCall := ⟨text, image_url, image_bytes⟩
  match env.deliver call with
  | .ok _ => call
  | .error _ => call

/-! ### The ingestion loop (`check_feeds`) -/

/-- The guid derivation of the entry loop:
`entry.get("id") or entry.get("guid") or entry.get("link")`. -/
def deriveGuid (e : Entry) : Option String :=
  pyOr (pyOr e.id e.guid) e.link

/-- Embeds the body of the entry loop of `check_feeds` for one entry: skip
when the guid is falsy or already in the ledger; otherwise format, resolve
the image, publish through the three-way dispatch (URL / placeholder bytes /
text-only), and mark the guid as posted.  Returns the ledger after the entry
and the `post_to_channel` invocations made for it. -/
def process_entry (env : Env) (feed_url feed_name : String) (db : DB)
    (e : Entry) : DB × List PubCall :=
  let guid := deriveGuid e
  if ¬ truthyS guid then (db, [])
  else
    let g := guid.getD ""
    if was_posted db g then (db, [])
    else
      let tl := format_entry env feed_name e
      let img_url := get_feed_entry_image_url env e
      let call :=
        if truthyS img_url then
          post_to_channel env tl.1 (img_url.getD "")
        else
          match env.placeholder with
          | .ok bytes => post_to_channel env tl.1 "" bytes
          | .error _ => post_to_channel env tl.1
      (mark_posted db feed_url g (e.title.getD "") tl.2 (e.published.getD "") env.now,
       [call])

/-- The entry loop of `check_feeds` over a list of entries, threading the
ledger and concatenating the publish traces. -/
def process_entries (env : Env) (feed_url feed_name : String) :
    DB → List Entry → DB × List PubCall
  | db, [] => (db, [])
  | db, e :: rest =>
      let step := process_entry env feed_url feed_name db e
      let restRes := process_entries env feed_url feed_name step.1 rest
      (restRes.1, step.2 ++ restRes.2)

/-- The feed loop of `check_feeds`: each feed parses inside a `try` whose
failure is logged and isolated, and a successful parse processes the first
eight entries. -/
def check_feeds_go (env : Env) : DB → List String → DB × List PubCall
  | db, [] => (db, [])
  | db, feed_url :: rest =>
      let step :=
        match env.parse feed_url with
        | .error _ => (db, ([] : List PubCall))
        | .ok fp =>
            let feed_name := fp.title.getD feed_url
            process_entries env feed_url feed_name db (fp.entries.take 8)
      let restRes := check_feeds_go env step.1 rest
      (restRes.1, step.2 ++ restRes.2)

/-- Embeds `check_feeds` as a function of the starting ledger, returning the
final ledger and the trace of publish invocations. -/
def check_feeds (env : Env) (db : DB) : DB × List PubCall :=
  check_feeds_go env db env.feeds

/-! ### The schedule image renderer (`build_daily_schedule_image`)

The drawing itself (PIL calls, logo pasting) is external; the repository
logic — which events become rows, in which order, with which fill colour,
names, logo URLs and pill text — is embedded as the list of rendered rows.
`paste_logo` failures are caught inside the source's helper and change no
layout value, so they do not appear in the row data. -/

/-- Python `next((t for t in teams if t.get("homeAway") == side), default)`. -/
def pickSide (teams : List Competitor) (side : String) (default : Competitor) :
    Competitor :=
  (teams.find? (fun t => t.homeAway == some side)).getD default

/-- The team display name of the renderer:
`team.get("shortDisplayName") or team.get("displayName", default)`. -/
def teamName (c : Competitor) (default : String) : String :=
  let t := teamOf c
  if truthyS t.shortDisplayName then t.shortDisplayName.getD ""
  else (t.displayName).getD default

/-- The `_logo` helper of the renderer: `team.get("logo")` or else the first
element of a non-empty `logos` list's `href`. -/
def logoOf (c : Competitor) : Option String :=
  let t := teamOf c
  pyOr t.logo
    (if t.logos ≠ [] then ((t.logos.headD {}).href) else none)

/-- The row loop of the renderer, carrying the `shown` counter: malformed
events (no `competitions`, or a competitor count other than two) are skipped
without consuming a slot; a rendered event takes its geometry and fill from
`shown`, which only then increments. -/
def build_rows_go (env : Env) : List GameEvent → Nat → List RowRender
  | [], _ => []
  | ev :: rest, shown =>
      match ev.competitions with
      | [] => build_rows_go env rest shown
      | comp :: _ =>
          let teams := comp.competitors
          if teams.length = 2 then
            let home := pickSide teams "home" (teams.headD {})
            let away := pickSide teams "away" (teams.getLastD {})
            let hour := (ev.date.bind env.hourOf).getD "--:--"
            let row : RowRender :=
              { fill := if shown % 2 = 0 then (24, 26, 38) else (18, 20, 30)
                top := 180 + 10 + shown * 150
                away_name := teamName away "Visita"
                home_name := teamName home "Local"
                away_logo := logoOf away
                home_logo := logoOf home
                hour := hour }
            row :: build_rows_go env rest (shown + 1)
          else build_rows_go env rest shown

/-- The rows the renderer draws: the event list is sliced to the first six
elements (`events[:max_rows]`) before the malformed-event filtering runs. -/
def build_rows (env : Env) (events : List GameEvent) : List RowRender :=
  build_rows_go env (events.take 6) 0

/-- The canvas `build_daily_schedule_image` assembles. -/
def build_canvas (env : Env) (events : List GameEvent) : Canvas :=
  { rows := build_rows env events }

/-- Embeds `build_daily_schedule_image`: assemble the canvas and encode it
to PNG bytes; an exception inside the drawing/encoding surfaces to the
caller (`post_cta` catches it). -/
def build_daily_schedule_image (env : Env) (events : List GameEvent) :
    Except Unit (List Nat) :=
  env.encodePng (build_canvas env events)

/-- An event is well-formed for the renderer and the textual schedule:
it has a competition whose competitor list has exactly two members. -/
def wellFormedEvent (ev : GameEvent) : Bool :=
  match ev.competitions with
  | [] => false
  | comp :: _ => comp.competitors.length = 2

/-! ### The textual schedule and the CTA composer -/

/-- The status label map of `fetch_todays_games_message`. -/
def statusLabel (s : String) : String :=
  if s = "pre" then "Programado"
  else if s = "in" then "EN VIVO"
  else if s = "post" then "Finalizado"
  else ""

/-- Python string interpolation of a `None`-able name inside an f-string. -/
def pyShow : Option String → String
  | none => "None"
  | some s => s

/-- One bullet line of the textual schedule for a well-formed event. -/
def scheduleLine (env : Env) (ev : GameEvent) (comp : Competition) : String :=
  let teams := comp.competitors
  let home := pickSide teams "home" (teams.headD {})
  let away := pickSide teams "away" (teams.getLastD {})
  let home_name := pyOr (teamOf home).shortDisplayName (teamOf home).displayName
  let away_name := pyOr (teamOf away).shortDisplayName (teamOf away).displayName
  let tip := if truthyS ev.date then ev.date.bind env.hourOf else none
  let hour_str := tip.getD "Horario a confirmar"
  let status := pyLower (comp.statusState.getD "")
  let status_txt := pyStripStr (statusLabel status)
  "• " ++ pyShow away_name ++ " @ " ++ pyShow home_name ++ " — " ++ hour_str
    ++ (if status_txt ≠ "" then " (" ++ status_txt ++ ")" else "")

/-- The event loop of `fetch_todays_games_message`, skipping malformed
events. -/
def scheduleLines (env : Env) : List GameEvent → List String
  | [] => []
  | ev :: rest =>
      match ev.competitions with
      | [] => scheduleLines env rest
      | comp :: _ =>
          if comp.competitors.length = 2 then
            scheduleLine env ev comp :: scheduleLines env rest
          else scheduleLines env rest

/-- Embeds `fetch_todays_games_message`: fetch today's scoreboard and render
it as bullet lines under the configured header; an empty event list or any
exception yields the corresponding fallback text. -/
def fetch_todays_games_message (env : Env) : String :=
  match env.scoreboardText with
  | .error _ => env.scheduleHeader ++ "\n\nNo pude obtener los partidos de hoy."
  | .ok events =>
      if events = [] then
        env.scheduleHeader ++ "\n\nNo hay partidos programados hoy."
      else
        String.intercalate "\n"
          ([env.scheduleHeader, ""] ++ scheduleLines env events)

/-- The message text `post_cta` publishes: the normalized CTA message, with
the textual schedule appended when `CTA_INCLUDE_SCHEDULE` is set. -/
def cta_message_text (env : Env) : String :=
  let msg := normalize_message env.ctaMessage
  if env.ctaIncludeSchedule then msg ++ "\n\n" ++ fetch_todays_games_message env
  else msg

/-- Embeds `post_cta`: build the message, then inside a `try` fetch the
scoreboard and, when it has events, render and publish the schedule image
with the message as caption and return; any exception in that block, or an
empty event list, falls through to a text-only publish.  Returns the
`post_to_channel` invocations made. -/
def post_cta (env : Env) : List PubCall :=
  let msg := cta_message_text env
  match env.scoreboardCta with
  | .ok events =>
      if events ≠ [] then
        match build_daily_schedule_image env events with
        | .ok img_bytes => [post_to_channel env msg "" img_bytes]
        | .error _ => [post_to_channel env msg]
      else [post_to_channel env msg]
  | .error _ => [post_to_channel env msg]

/-! ### Concrete instances used to exercise the theorems -/

/-- A concrete environment: the unescaper is the identity (it agrees with
`html.unescape` on every entity-free string used below), every network
capability fails, delivery fails with a `TelegramError`, and the placeholder
file is unreadable. -/
def envA : Env :=
  { unescape := id
    fetchPage := fun _ => .error ()
    findOgContent := fun _ => none
    translate := fun _ => .error ()
    deliver := fun _ => .error ()
    placeholder := .error ()
    now := "2026-10-12T00:00:00"
    parse := fun _ => .error ()
    feeds := []
    postTemplate := "{title}|{excerpt}|{link}|{published}|{source}"
    fmtParsed := fun _ => none
    hourOf := fun _ => none
    encodePng := fun c => .ok [c.rows.length]
    scoreboardText := .error ()
    scoreboardCta := .error ()
    ctaMessage := ""
    ctaIncludeSchedule := false
    scheduleHeader := "HDR" }

/-- A well-formed scoreboard event: one competition with two competitors. -/
def evGood : GameEvent :=
  { competitions :=
      [{ competitors := [{ homeAway := some "home" }, { homeAway := some "away" }] }] }

/-- A malformed scoreboard event: the `competitions` list is empty. -/
def evBad : GameEvent := {}

/-- Seven events whose second member is malformed: six are well-formed, but
only five fit the sliced window once the malformed one is dropped. -/
def evs7 : List GameEvent :=
  [evGood, evBad, evGood, evGood, evGood, evGood, evGood]

/-! ### Helper lemmas -/

theorem post_to_channel_eq (env : Env) (text image_url : String)
    (image_bytes : List Nat) :
    post_to_channel env text image_url image_bytes
      = ⟨text, image_url, image_bytes⟩ := by
  unfold post_to_channel
  cases h : env.deliver ⟨text, image_url, image_bytes⟩ <;> simp [h]

theorem was_posted_mark (db : DB) (feed guid title url published_at now : String) :
    was_posted (mark_posted db feed guid title url published_at now) guid = true := by
  unfold was_posted mark_posted
  by_cases h : db.any (fun r => r.guid == guid)
  · simp [h]
  · simp [h]

theorem mark_posted_noop (db : DB) (feed guid title url published_at now : String)
    (h : was_posted db guid = true) :
    mark_posted db feed guid title url published_at now = db := by
  unfold was_posted at h
  simp [mark_posted, h]

theorem uniqueGuids_mark_posted (db : DB)
    (feed guid title url published_at now : String) (h : uniqueGuids db) :
    uniqueGuids (mark_posted db feed guid title url published_at now) := by
  unfold mark_posted
  by_cases hmem : db.any (fun r => r.guid == guid) = true
  · simpa [hmem] using h
  · rw [if_neg hmem]
    unfold uniqueGuids at h ⊢
    rw [List.map_append, List.nodup_append]
    refine ⟨h, List.nodup_singleton _, ?_⟩
    intro a ha hb
    simp only [List.map_cons, List.map_nil, List.mem_singleton] at hb
    subst hb
    rcases List.mem_map.mp ha with ⟨r, hr, hrg⟩
    exact hmem (List.any_eq_true.mpr ⟨r, hr, by simp [hrg]⟩)

theorem uniqueGuids_process_entry (env : Env) (feed_url feed_name : String)
    (db : DB) (e : Entry) (h : uniqueGuids db) :
    uniqueGuids (process_entry env feed_url feed_name db e).1 := by
  unfold process_entry
  by_cases h1 : truthyS (deriveGuid e)
  · by_cases h2 : was_posted db ((deriveGuid e).getD "")
    · simpa [h1, h2] using h
    · simpa [h1, h2] using uniqueGuids_mark_posted db feed_url _ _ _ _ _ h
  · simpa [h1] using h

theorem uniqueGuids_process_entries (env : Env) (feed_url feed_name : String)
    (db : DB) (es : List Entry) (h : uniqueGuids db) :
    uniqueGuids (process_entries env feed_url feed_name db es).1 := by
  induction es generalizing db with
  | nil => simpa [process_entries] using h
  | cons e rest ih =>
      simpa [process_entries] using
        ih _ (uniqueGuids_process_entry env feed_url feed_name db e h)

theorem uniqueGuids_check_feeds_go (env : Env) (db : DB) (feeds : List String)
    (h : uniqueGuids db) : uniqueGuids (check_feeds_go env db feeds).1 := by
  induction feeds generalizing db with
  | nil => simpa [check_feeds_go] using h
  | cons f rest ih =>
      unfold check_feeds_go
      cases hp : env.parse f with
      | error _ => simpa [hp] using ih _ h
      | ok fp =>
          simpa [hp] using
            ih _ (uniqueGuids_process_entries env f (fp.title.getD f) db
              (fp.entries.take 8) h)

/-! ### C1 -/

/-- C1: for all feed entries with identical derived guid, at most one
publish attempt is recorded across any number of poll cycles: `was_posted`
returns true after `mark_posted` for that guid; `mark_posted` with a
duplicate guid is a silent no-op (the `INSERT OR IGNORE` against the
`UNIQUE` guid column), never an error, leaving the ledger unchanged; and
guid-uniqueness of the ledger is preserved by every poll cycle. -/
theorem dedup_store_idempotent (db : DB)
    (feed guid title url published_at now : String) :
    was_posted (mark_posted db feed guid title url published_at now) guid = true
    ∧ (was_posted db guid = true →
        mark_posted db feed guid title url published_at now = db)
    ∧ (uniqueGuids db →
        uniqueGuids (mark_posted db feed guid title url published_at now))
    ∧ (∀ env dbIn, uniqueGuids dbIn → uniqueGuids (check_feeds env dbIn).1) :=
  ⟨was_posted_mark db feed guid title url published_at now,
   mark_posted_noop db feed guid title url published_at now,
   uniqueGuids_mark_posted db feed guid title url published_at now,
   fun env dbIn h => uniqueGuids_check_feeds_go env dbIn env.feeds h⟩

/-- Witness for C1 at a concrete ledger: the guid `g` is found after
inserting it, re-inserting it changes nothing, and uniqueness survives both
the insert and a full (single-feed, always-failing) poll cycle. -/
theorem dedup_store_idempotent_witness :
    was_posted (mark_posted [⟨"f", "g", "t", "u", "p", "n"⟩] "f2" "g" "t2" "u2" "p2" "n2") "g" = true
    ∧ mark_posted [⟨"f", "g", "t", "u", "p", "n"⟩] "f2" "g" "t2" "u2" "p2" "n2"
        = [⟨"f", "g", "t", "u", "p", "n"⟩]
    ∧ uniqueGuids (mark_posted [⟨"f", "g", "t", "u", "p", "n"⟩] "f2" "g" "t2" "u2" "p2" "n2")
    ∧ uniqueGuids (check_feeds envA [⟨"f", "g", "t", "u", "p", "n"⟩]).1 :=
  ⟨(dedup_store_idempotent [⟨"f", "g", "t", "u", "p", "n"⟩] "f2" "g" "t2" "u2" "p2" "n2").1,
   (dedup_store_idempotent [⟨"f", "g", "t", "u", "p", "n"⟩] "f2" "g" "t2" "u2" "p2" "n2").2.1
     (by decide),
   (dedup_store_idempotent [⟨"f", "g", "t", "u", "p", "n"⟩] "f2" "g" "t2" "u2" "p2" "n2").2.2.1
     (by decide),
   (dedup_store_idempotent [⟨"f", "g", "t", "u", "p", "n"⟩] "f2" "g" "t2" "u2" "p2" "n2").2.2.2
     envA [⟨"f", "g", "t", "u", "p", "n"⟩] (by decide)⟩

/-! ### C2 -/

/-- C2: every new feed entry is recorded in the dedup store after the
publish attempt regardless of whether delivery succeeded — `post_to_channel`
catches the transport's errors internally and always returns, `mark_posted`
runs unconditionally after it (for any environment, including one whose
delivery always fails), and re-processing the same entry against the updated
ledger is a silent skip with no further publish. -/
theorem process_entry_skip (env : Env) (feed_url feed_name : String)
    (db : DB) (e : Entry) (g : String)
    (h1 : deriveGuid e = some g) (h2 : g ≠ "") (hwp : was_posted db g = true) :
    process_entry env feed_url feed_name db e = (db, []) := by
  unfold process_entry
  simp [h1, truthyS, h2, hwp]

theorem ledger_records_despite_delivery_failure (env env2 : Env)
    (feed_url feed_name : String) (db : DB) (e : Entry) (g : String)
    (h1 : deriveGuid e = some g) (h2 : g ≠ "") (h3 : was_posted db g = false) :
    (∀ text image_url image_bytes,
        post_to_channel env text image_url image_bytes
          = ⟨text, image_url, image_bytes⟩)
    ∧ was_posted (process_entry env feed_url feed_name db e).1 g = true
    ∧ (process_entry env feed_url feed_name db e).2.length = 1
    ∧ process_entry env2 feed_url feed_name
        (process_entry env feed_url feed_name db e).1 e
      = ((process_entry env feed_url feed_name db e).1, []) := by
  have htr : truthyS (deriveGuid e) = true := by rw [h1]; simp [truthyS, h2]
  have hg : (deriveGuid e).getD "" = g := by rw [h1]; rfl
  have hfst : (process_entry env feed_url feed_name db e).1
      = mark_posted db feed_url g (e.title.getD "")
          (format_entry env feed_name e).2 (e.published.getD "") env.now := by
    unfold process_entry
    simp [htr, hg, h3]
  refine ⟨fun t u b => post_to_channel_eq env t u b, ?_, ?_, ?_⟩
  · rw [hfst]
    exact was_posted_mark db feed_url g _ _ _ _
  · unfold process_entry
    simp [htr, hg, h3]
  · have hwp : was_posted (process_entry env feed_url feed_name db e).1 g = true := by
      rw [hfst]; exact was_posted_mark db feed_url g _ _ _ _
    exact process_entry_skip env2 feed_url feed_name _ e g h1 h2 hwp

/-- Witness for C2: a fresh entry with guid `g1`, processed against an empty
ledger under `envA`, whose delivery capability always fails, still lands in
the ledger, generates exactly one publish call, and is skipped when
reprocessed. -/
theorem ledger_records_despite_delivery_failure_witness :
    was_posted (process_entry envA "feedU" "feedN" [] { id := some "g1" }).1 "g1" = true
    ∧ (process_entry envA "feedU" "feedN" [] { id := some "g1" }).2.length = 1
    ∧ process_entry envA "feedU" "feedN"
        (process_entry envA "feedU" "feedN" [] { id := some "g1" }).1 { id := some "g1" }
      = ((process_entry envA "feedU" "feedN" [] { id := some "g1" }).1, []) :=
  ⟨(ledger_records_despite_delivery_failure envA envA "feedU" "feedN" []
      { id := some "g1" } "g1" rfl (by decide) rfl).2.1,
   (ledger_records_despite_delivery_failure envA envA "feedU" "feedN" []
      { id := some "g1" } "g1" rfl (by decide) rfl).2.2.1,
   (ledger_records_despite_delivery_failure envA envA "feedU" "feedN" []
      { id := some "g1" } "g1" rfl (by decide) rfl).2.2.2⟩

/-! ### C3 -/

/-- C3: an entry from which no guid can be derived (id, guid field and link
all falsy) is neither published nor recorded — the ledger and the publish
trace are untouched — and processing continues with the next entry. -/
theorem unidentifiable_entry_dropped (env : Env) (feed_url feed_name : String)
    (db : DB) (e : Entry) (rest : List Entry)
    (h : truthyS (deriveGuid e) = false) :
    process_entry env feed_url feed_name db e = (db, [])
    ∧ process_entries env feed_url feed_name db (e :: rest)
      = process_entries env feed_url feed_name db rest := by
  have h1 : process_entry env feed_url feed_name db e = (db, []) := by
    unfold process_entry
    simp [h]
  exact ⟨h1, by simp [process_entries, h1]⟩

/-- Witness for C3: the entry with no id, no guid field and no link is
dropped, and the loop over a one-entry list equals the loop over none. -/
theorem unidentifiable_entry_dropped_witness :
    process_entry envA "feedU" "feedN" [] ({} : Entry) = ([], [])
    ∧ process_entries envA "feedU" "feedN" [] [({} : Entry)]
      = process_entries envA "feedU" "feedN" [] [] :=
  unidentifiable_entry_dropped envA "feedU" "feedN" [] {} [] (by decide)

/-! ### C4 -/

/-- C4: the image resolver respects the fallback order with first success
winning — a truthy feed-native media URL is returned with no og:image fetch
and with the link tiers never consulted (the result is the same for any
`links`/`link` content and any environment); a matching enclosure/preview
link ends the search with no og:image fetch; and when every tier fails the
resolver returns the empty string. -/
theorem image_resolver_fallback_order (env : Env) (e : Entry) :
    (∀ u, mediaTier e = some u →
        ∀ env2 ls lk,
          get_feed_entry_image_url_traced env2 { e with links := ls, link := lk }
            = (some u, 0))
    ∧ (∀ l, mediaTier e = none → findEnclosureLink e.links = some l →
        truthyS l.href = true →
        get_feed_entry_image_url_traced env e = (l.href, 0))
    ∧ (mediaTier e = none → findEnclosureLink e.links = none →
        (e.link.getD "" = "" →
          get_feed_entry_image_url_traced env e = (some "", 0))
        ∧ (e.link.getD "" ≠ "" → fetch_opengraph_image env (e.link.getD "") = "" →
            get_feed_entry_image_url_traced env e = (some "", 1))) := by
  have hmedia : ∀ ls lk, mediaTier { e with links := ls, link := lk } = mediaTier e :=
    fun ls lk => rfl
  refine ⟨?_, ?_, ?_⟩
  · intro u hu env2 ls lk
    unfold get_feed_entry_image_url_traced
    rw [hmedia, hu]
  · intro l hm hl _
    unfold get_feed_entry_image_url_traced
    rw [hm, hl]
  · intro hm hl
    constructor
    · intro ha
      unfold get_feed_entry_image_url_traced
      rw [hm, hl]
      simp [ha]
    · intro ha hog
      unfold get_feed_entry_image_url_traced
      rw [hm, hl]
      simp [ha, hog]

/-- Witness for C4, one conjunct per tier: a media URL wins over a present
enclosure link and article link with no og fetch; an enclosure link wins
with no og fetch; an article whose og scrape fails yields `""` after one
fetch; and a bare entry yields `""` with no fetch. -/
theorem image_resolver_fallback_order_witness :
    get_feed_entry_image_url_traced envA
        { media_content := [⟨some "http://m"⟩],
          links := [⟨some "enclosure", some "image/png", some "http://e"⟩],
          link := some "http://art" }
      = (some "http://m", 0)
    ∧ get_feed_entry_image_url_traced envA
        { links := [⟨some "enclosure", some "image/png", some "http://e"⟩] }
      = (some "http://e", 0)
    ∧ get_feed_entry_image_url_traced envA { link := some "http://art" } = (some "", 1)
    ∧ get_feed_entry_image_url_traced envA ({} : Entry) = (some "", 0) :=
  ⟨(image_resolver_fallback_order envA { media_content := [⟨some "http://m"⟩] }).1
      "http://m" rfl envA
      [⟨some "enclosure", some "image/png", some "http://e"⟩] (some "http://art"),
   (image_resolver_fallback_order envA
      { links := [⟨some "enclosure", some "image/png", some "http://e"⟩] }).2.1
      ⟨some "enclosure", some "image/png", some "http://e"⟩ rfl (by decide) (by decide),
   ((image_resolver_fallback_order envA { link := some "http://art" }).2.2
      rfl rfl).2 (by decide) rfl,
   ((image_resolver_fallback_order envA ({} : Entry)).2.2 rfl rfl).1 rfl⟩

/-! ### C5 -/

/-- C5: for a new entry the loop makes exactly one publish call, in three
tiers of degradation — a truthy resolver result is published as an image
URL; a falsy resolver result with a readable placeholder file is published
with the placeholder's bytes; and a falsy resolver result with an unreadable
placeholder file yields a text-only call. -/
theorem publish_three_tier_degradation (env : Env) (feed_url feed_name : String)
    (db : DB) (e : Entry) (g : String)
    (h1 : deriveGuid e = some g) (h2 : g ≠ "") (h3 : was_posted db g = false) :
    (process_entry env feed_url feed_name db e).2.length = 1
    ∧ (truthyS (get_feed_entry_image_url env e) = true →
        (process_entry env feed_url feed_name db e).2
          = [⟨(format_entry env feed_name e).1,
              (get_feed_entry_image_url env e).getD "", []⟩])
    ∧ (∀ bytes, truthyS (get_feed_entry_image_url env e) = false →
        env.placeholder = .ok bytes →
        (process_entry env feed_url feed_name db e).2
          = [⟨(format_entry env feed_name e).1, "", bytes⟩])
    ∧ (truthyS (get_feed_entry_image_url env e) = false →
        env.placeholder = .error () →
        (process_entry env feed_url feed_name db e).2
          = [⟨(format_entry env feed_name e).1, "", []⟩]) := by
  have htr : truthyS (deriveGuid e) = true := by rw [h1]; simp [truthyS, h2]
  have hg : (deriveGuid e).getD "" = g := by rw [h1]; rfl
  refine ⟨?_, ?_, ?_, ?_⟩
  · unfold process_entry
    simp [htr, hg, h3]
  · intro h
    unfold process_entry
    simp [htr, hg, h3, h, post_to_channel_eq]
  · intro bytes h hp
    unfold process_entry
    simp [htr, hg, h3, h, hp, post_to_channel_eq]
  · intro h hp
    unfold process_entry
    simp [htr, hg, h3, h, hp, post_to_channel_eq]

/-- The environment of the C5 witness: like `envA` but with a readable
placeholder file holding the bytes `[1, 2, 3]`. -/
def envB : Env :=
  { envA with placeholder := .ok [1, 2, 3] }

/-- Witness for C5 at the middle tier: an imageless entry published under a
readable placeholder produces exactly one call carrying the placeholder
bytes. -/
theorem publish_three_tier_degradation_witness :
    (process_entry envB "feedU" "feedN" [] { id := some "g5" }).2.length = 1
    ∧ (process_entry envB "feedU" "feedN" [] { id := some "g5" }).2
      = [⟨(format_entry envB "feedN" { id := some "g5" }).1, "", [1, 2, 3]⟩] :=
  ⟨(publish_three_tier_degradation envB "feedU" "feedN" [] { id := some "g5" }
      "g5" rfl (by decide) rfl).1,
   (publish_three_tier_degradation envB "feedU" "feedN" [] { id := some "g5" }
      "g5" rfl (by decide) rfl).2.2.1 [1, 2, 3] (by decide) rfl⟩

/-! ### C6 -/

theorem dropWhile_eq_cons_of_mem {l : List Char} (h : ' ' ∈ l) :
    ∃ rest, l.dropWhile (fun c => c ≠ ' ') = ' ' :: rest := by
  induction l with
  | nil => cases h
  | cons a t ih =>
      by_cases ha : a = ' '
      · subst ha
        exact ⟨t, by simp⟩
      · have h2 : ' ' ∈ t := by
          rcases List.mem_cons.mp h with h0 | h0
          · exact absurd h0.symm ha
          · exact h0
        rcases ih h2 with ⟨r, hr⟩
        refine ⟨r, ?_⟩
        simpa [List.dropWhile_cons, ha] using hr

theorem beforeLastSpace_spec {l : List Char} (h : ' ' ∈ l) :
    ∃ k, k < l.length ∧ l[k]? = some ' ' ∧ beforeLastSpace l = l.take k
      ∧ ∀ j, k < j → l[j]? ≠ some ' ' := by
  have hrev : ' ' ∈ l.reverse := List.mem_reverse.mpr h
  rcases dropWhile_eq_cons_of_mem hrev with ⟨rest, hdrop⟩
  have hsplit : l.reverse
      = l.reverse.takeWhile (fun c => c ≠ ' ') ++ (' ' :: rest) := by
    conv_lhs =>
      rw [← List.takeWhile_append_dropWhile (p := fun c => c ≠ ' ')
            (l := l.reverse)]
    rw [hdrop]
  have hl : l = rest.reverse
      ++ (' ' :: (l.reverse.takeWhile (fun c => c ≠ ' ')).reverse) := by
    have h3 := congrArg List.reverse hsplit
    simpa [List.reverse_append, List.append_assoc] using h3
  refine ⟨rest.reverse.length, ?_, ?_, ?_, ?_⟩
  · conv_rhs => rw [hl]
    simp
  · conv_lhs => rw [hl]
    rw [List.getElem?_append_right (Nat.le_refl _)]
    simp
  · unfold beforeLastSpace
    rw [hdrop]
    conv_rhs => rw [hl]
    rw [List.take_left]
  · intro j hj hcontra
    rw [hl] at hcontra
    rw [List.getElem?_append_right (by omega)] at hcontra
    have hpos : j - rest.reverse.length = (j - rest.reverse.length - 1) + 1 := by
      omega
    rw [hpos, List.getElem?_cons_succ] at hcontra
    have hmem : ' ' ∈ (l.reverse.takeWhile (fun c => c ≠ ' ')).reverse :=
      List.getElem?_mem hcontra
    have h4 := List.mem_takeWhile_imp (List.mem_reverse.mp hmem)
    simp at h4

/-- C6 counterexample: the claim fails as stated.  For the entry whose
cleaned summary is the single eight-letter word `abcdefgh` and limit 5,
`extract_excerpt` returns `abcde…`: the last character before the ellipsis
sits at source index 4 and the source continues at index 5 with the letter
`f`, not a space — the truncation split the word (`rsplit(" ", 1)[0]`
returns the whole cut when the cut holds no space). -/
theorem excerpt_truncation_splits_long_word :
    extract_excerpt envA { summary := some "abcdefgh" } 5 = "abcde…"
    ∧ cleanText envA (excerptRaw { summary := some "abcdefgh" }) = "abcdefgh"
    ∧ "abcdefgh".data[4]? = some 'e'
    ∧ "abcdefgh".data[5]? = some 'f'
    ∧ isPySpace 'f' = false := by
  exact ⟨by decide, by decide, by decide, by decide, by decide⟩

/-- C6 (amended): inputs whose cleaned text has length at most `max_chars`
are returned unchanged, without an appended ellipsis; and when the cleaned
text is longer than `max_chars` *and its first `max_chars` characters
contain a space*, the output keeps exactly the text before the last such
space — a position holding a space in the cleaned text, with no later space
inside the window — followed by the ellipsis marker, so the truncation ends
at a whole-word boundary.  (The extra space proviso is forced by the
counterexample: a cut with no space inside is kept whole, splitting the
word.) -/
theorem excerpt_truncation_amended (env : Env) (e : Entry) (maxChars : Nat)
    (t : String) (h0 : cleanText env (excerptRaw e) = t) :
    (t.length ≤ maxChars → extract_excerpt env e maxChars = t)
    ∧ (maxChars < t.length → ' ' ∈ t.data.take maxChars →
        ∃ k, k < maxChars ∧ t.data[k]? = some ' '
          ∧ extract_excerpt env e maxChars = ⟨t.data.take k ++ ['…']⟩
          ∧ ∀ j, k < j → j < maxChars → t.data[j]? ≠ some ' ') := by
  constructor
  · intro hle
    unfold extract_excerpt
    simp only [h0]
    rw [if_neg (by omega)]
  · intro hlt hsp
    rcases beforeLastSpace_spec hsp with ⟨k, hk1, hk2, hk3, hk4⟩
    have hlen : (t.data.take maxChars).length = maxChars := by
      have ht : maxChars ≤ t.data.length := by
        have : t.length = t.data.length := rfl
        omega
      simp [List.length_take]
      omega
    have hkm : k < maxChars := by omega
    refine ⟨k, hkm, ?_, ?_, ?_⟩
    · rw [List.getElem?_take_of_lt hkm] at hk2
      exact hk2
    · unfold extract_excerpt
      simp only [h0]
      rw [if_pos hlt, hk3, List.take_take, Nat.min_eq_left (Nat.le_of_lt hkm)]
    · intro j hj hjm hcontra
      apply hk4 j hj
      rw [List.getElem?_take_of_lt hjm]
      exact hcontra

/-- Witness for the amended C6: the cleaned text `ab cd ef` with limit 5 is
truncated at the last space inside the window (position 2), producing
`ab…`, with no later space in the window. -/
theorem excerpt_truncation_amended_witness :
    ∃ k, k < 5 ∧ "ab cd ef".data[k]? = some ' '
      ∧ extract_excerpt envA { summary := some "ab cd ef" } 5
          = ⟨"ab cd ef".data.take k ++ ['…']⟩
      ∧ ∀ j, k < j → j < 5 → "ab cd ef".data[j]? ≠ some ' ' :=
  (excerpt_truncation_amended envA { summary := some "ab cd ef" } 5 "ab cd ef"
      (by decide)).2 (by decide) (by decide)

/-! ### C7 -/

/-- C7: with a positive limit, the string handed to the translation
capability is the input truncated to at most `limit` characters, and when
the capability fails, `translate_to_spanish` returns the original
(untranslated, untruncated) input unchanged instead of raising. -/
theorem translate_truncates_and_never_fails (env : Env) (text : String)
    (limit : Nat) (err : Unit)
    (h1 : 0 < limit)
    (h2 : env.translate (translationInput text limit) = .error err) :
    (translationInput text limit).length ≤ limit
    ∧ translate_to_spanish env text limit = text := by
  constructor
  · unfold translationInput
    split
    · next hcond =>
        simp at hcond
        omega
    · next hcond =>
        have h3 : (⟨text.data.take limit⟩ : String).length
            = (text.data.take limit).length := rfl
        rw [h3, List.length_take]
        exact Nat.min_le_left _ _
  · unfold translate_to_spanish
    rw [h2]

/-- Witness for C7: with limit 3 the translator sees at most 3 characters
(`hel`), and since `envA`'s translator always fails, the full original text
comes back unchanged. -/
theorem translate_truncates_and_never_fails_witness :
    (translationInput "hello world" 3).length ≤ 3
    ∧ translate_to_spanish envA "hello world" 3 = "hello world" :=
  translate_truncates_and_never_fails envA "hello world" 3 () (by decide) rfl

/-! ### C8 -/

theorem build_rows_go_fill (env : Env) (l : List GameEvent) (n i : Nat)
    (r : RowRender) (h : (build_rows_go env l n)[i]? = some r) :
    r.fill = if (n + i) % 2 = 0 then (24, 26, 38) else (18, 20, 30) := by
  induction l generalizing n i with
  | nil => simp [build_rows_go] at h
  | cons ev rest ih =>
      unfold build_rows_go at h
      cases hc : ev.competitions with
      | nil =>
          rw [hc] at h
          exact ih n i h
      | cons comp tail =>
          simp only [hc] at h
          by_cases ht : comp.competitors.length = 2
          · rw [if_pos ht] at h
            cases i with
            | zero =>
                rw [List.getElem?_cons_zero] at h
                have hr := Option.some.inj h
                subst hr
                simp
            | succ j =>
                rw [List.getElem?_cons_succ] at h
                have h5 := ih (n + 1) j h
                rw [h5]
                have h6 : n + 1 + j = n + (j + 1) := by omega
                rw [h6]
          · rw [if_neg ht] at h
            exact ih n i h

/-- C8: the alternating background shade of each rendered row depends only
on the row's position among rendered rows — the row found at output index
`i` carries shade A `(24, 26, 38)` for even `i` and shade B `(18, 20, 30)`
for odd `i`, for every input event list, however many malformed events were
skipped before it. -/
theorem row_striping_rendered_parity (env : Env) (events : List GameEvent)
    (i : Nat) (r : RowRender)
    (h : (build_rows env events)[i]? = some r) :
    r.fill = if i % 2 = 0 then (24, 26, 38) else (18, 20, 30) := by
  unfold build_rows at h
  simpa using build_rows_go_fill env (events.take 6) 0 i r h

/-- The second rendered row of the C8/C10 scenario (the third source event,
since the second source event is malformed and skipped). -/
def rowB : RowRender :=
  { fill := (18, 20, 30), top := 340, away_name := "Visita",
    home_name := "Local", away_logo := none, home_logo := none,
    hour := "--:--" }

/-- Witness for C8: with the second of the source events malformed, the row
at rendered position 1 — built from the *third* source event — carries
shade B, exactly as position parity dictates, with no shade skipped for the
dropped row. -/
theorem row_striping_rendered_parity_witness :
    (build_rows envA evs7)[1]? = some rowB ∧ rowB.fill = (18, 20, 30) :=
  ⟨by decide, row_striping_rendered_parity envA evs7 1 rowB (by decide)⟩

/-! ### C9 -/

/-- C9: the CTA composer never fails outright — for every environment
`post_cta` makes exactly one publish call, and the call carries the rendered
schedule image bytes when the scoreboard fetch succeeds with a non-empty
event list and rendering succeeds, and the text alone (no image URL, no
image bytes) when the fetch fails, the event list is empty, or rendering
fails. -/
theorem cta_always_publishes_once (env : Env) :
    (post_cta env).length = 1
    ∧ (∀ err, env.scoreboardCta = .error err →
        post_cta env = [⟨cta_message_text env, "", []⟩])
    ∧ (env.scoreboardCta = .ok [] →
        post_cta env = [⟨cta_message_text env, "", []⟩])
    ∧ (∀ events b, env.scoreboardCta = .ok events → events ≠ [] →
        build_daily_schedule_image env events = .ok b →
        post_cta env = [⟨cta_message_text env, "", b⟩])
    ∧ (∀ events err, env.scoreboardCta = .ok events → events ≠ [] →
        build_daily_schedule_image env events = .error err →
        post_cta env = [⟨cta_message_text env, "", []⟩]) := by
  refine ⟨?_, ?_, ?_, ?_, ?_⟩
  · unfold post_cta
    cases hs : env.scoreboardCta with
    | error e => simp
    | ok events =>
        by_cases he : events = []
        · simp [he]
        · cases hb : build_daily_schedule_image env events <;> simp [he, hb]
  · intro err herr
    unfold post_cta
    rw [herr]
    simp [post_to_channel_eq]
  · intro hok
    unfold post_cta
    rw [hok]
    simp [post_to_channel_eq]
  · intro events b hok hne hb
    unfold post_cta
    rw [hok]
    simp [hne, hb, post_to_channel_eq]
  · intro events err hok hne hb
    unfold post_cta
    rw [hok]
    simp [hne, hb, post_to_channel_eq]

/-- Witness for C9: under `envA`, whose scoreboard fetch fails, `post_cta`
still publishes, exactly once, with text only — no image URL and no image
bytes. -/
theorem cta_always_publishes_once_witness :
    (post_cta envA).length = 1
    ∧ post_cta envA = [⟨cta_message_text envA, "", []⟩] :=
  ⟨(cta_always_publishes_once envA).1,
   (cta_always_publishes_once envA).2.1 () rfl⟩

/-! ### C10 -/

theorem build_rows_go_length (env : Env) (l : List GameEvent) (n : Nat) :
    (build_rows_go env l n).length = (l.filter wellFormedEvent).length := by
  induction l generalizing n with
  | nil => simp [build_rows_go]
  | cons ev rest ih =>
      unfold build_rows_go
      cases hc : ev.competitions with
      | nil => simp [List.filter_cons, wellFormedEvent, hc, ih n]
      | cons comp tail =>
          by_cases ht : comp.competitors.length = 2
          · simp [List.filter_cons, wellFormedEvent, hc, ht, ih (n + 1)]
          · simp [List.filter_cons, wellFormedEvent, hc, ht, ih n]

/-- C10: the renderer inspects only the first six elements of its input (the
slice happens before malformed-event filtering): its rows are those of the
sliced list, their number is the number of well-formed events among the
first six — so a malformed event inside the window does not free a slot for
a later one — and concretely, for seven events whose second member is
malformed, the input holds six well-formed events yet only five rows are
rendered. -/
theorem renderer_slice_before_filter :
    (∀ env events, build_rows env events = build_rows env (events.take 6))
    ∧ (∀ env events, (build_rows env events).length
        = ((events.take 6).filter wellFormedEvent).length)
    ∧ (evs7.filter wellFormedEvent).length = 6
    ∧ (build_rows envA evs7).length = 5 := by
  refine ⟨?_, ?_, by decide, by decide⟩
  · intro env events
    unfold build_rows
    simp [List.take_take]
  · intro env events
    unfold build_rows
    exact build_rows_go_length env (events.take 6) 0

end AutoBot
